import Mathlib

/-!
Verification of the TrackBridgeElectron device protocol engine
(`src/public/injected.js`), shallowly embedded in Lean.

Conventions used throughout:
* JavaScript numbers used as integers are modelled as `Nat`; the JS masks
  `x & 0xFF` / `x & 0xFFFF` are `x &&& 0xFF` / `x &&& 0xFFFF`, the shifts
  `<<` / `>>` are `<<<` / `>>>` (all values involved stay below 2^31, so JS
  32-bit semantics coincide with plain `Nat` semantics).
* Byte buffers (`Uint8Array`) are `List Nat` whose elements are below 256.
* IEEE-754 values are modelled by `JSVal` (NaN, signed infinities, or an
  exact rational).  Binary32 decoding is exact; arithmetic on finite values
  is idealized to exact rational arithmetic (float64 rounding is not
  modelled, and neither is the sign of zero).
-/

namespace TrackBridge

set_option maxRecDepth 16000

/-! ### Checksum engine (injected.js, lines 102-124) -/

/-- One iteration of the `CRC_TABLE` initialization inner loop:
`if (crc & 0x8000) { crc = (crc << 1) ^ 0x1021 } else { crc = crc << 1 }`.
As in the source, no per-iteration 16-bit mask is applied. -/
def crcTableGen (c : Nat) : Nat :=
  if c &&& 0x8000 ≠ 0 then (c <<< 1) ^^^ 0x1021 else c <<< 1

/-- Table entry `CRC_TABLE[i]`: eight generator iterations on `i << 8`, masked to
16 bits at the end (`CRC_TABLE[i] = crc & 0xFFFF`). -/
def CRC_TABLE (i : Nat) : Nat := (crcTableGen^[8] (i <<< 8)) &&& 0xFFFF

/-- One loop iteration of `calcCrc16`:
`crc = ((crc << 8) ^ CRC_TABLE[((crc >> 8) ^ data[i]) & 0xFF]) & 0xFFFF`. -/
def crcTableStep (crc b : Nat) : Nat :=
  ((crc <<< 8) ^^^ CRC_TABLE (((crc >>> 8) ^^^ b) &&& 0xFF)) &&& 0xFFFF

/-- Function `calcCrc16(data, start, length)`: table-driven CRC-16/CCITT over
`data[start .. start+length)`, initial value `0xFFFF`, no final XOR. -/
def calcCrc16 (data : List Nat) (start len : Nat) : Nat :=
  ((data.drop start).take len).foldl crcTableStep 0xFFFF

/-! ### Bit-by-bit reference CRC (modelled from the spec's words:
"CRC-16/CCITT, MSB-first, polynomial 0x1021, initial value 0xFFFF,
no final XOR").  This is the second definition of a refinement pair;
`calcCrc16` above is the one translated from the source. -/

/-- One MSB-first polynomial-division bit step on a 16-bit state. -/
def crcBitStep (c : Nat) : Nat :=
  if c &&& 0x8000 ≠ 0 then ((c <<< 1) ^^^ 0x1021) &&& 0xFFFF
  else (c <<< 1) &&& 0xFFFF

/-- Bit-by-bit absorption of one byte: XOR the byte into the top half of
the state, then run eight polynomial bit steps. -/
def crcBitByte (c b : Nat) : Nat := crcBitStep^[8] (c ^^^ (b <<< 8))

/-- Bit-by-bit reference CRC over `data[start .. start+length)`. -/
def crcBitRef (data : List Nat) (start len : Nat) : Nat :=
  ((data.drop start).take len).foldl crcBitByte 0xFFFF

/-! ### Command packet builder (`_buildMcuCommand`, injected.js lines 172-212)

The source allocates a zero-filled `Uint8Array` of length `19 + dataLen`,
writes header, length, command id, message counter, payload and end
marker, computes the CRC over offsets `[4, packetLen)` and stores it
big-endian at offsets 2 and 3.  Since offsets 0-3 are outside the CRC
range, this is embedded as header-and-CRC prepended to the body (the
bytes from offset 4 on).  `Uint8Array` stores drop bits above 8, hence
the `% 256` on every stored byte (`Uint8Array.prototype.set` likewise
truncates the payload bytes). -/

/-- Bytes of the command packet from offset 4 to the end: length field
(little-endian), 8 reserved zero bytes, command id (little-endian),
incremented message counter (little-endian), payload, end marker 0x03. -/
def mcuBody (msgCounter cmdId : Nat) (dataBytes : List Nat) : List Nat :=
  let payloadLen := 8 + 2 + 2 + dataBytes.length + 1
  let ctr := (msgCounter + 1) % 65536
  [payloadLen % 256, payloadLen / 256 % 256, 0, 0, 0, 0, 0, 0, 0, 0,
    cmdId % 256, cmdId / 256 % 256, ctr % 256, ctr / 256 % 256]
  ++ dataBytes.map (· % 256) ++ [0x03]

/-- Builder `_buildMcuCommand(cmdId, dataBytes)` with the pre-call message counter
made explicit: header `0xFF 0xFE`, big-endian CRC over the body, body. -/
def buildMcuCommand (msgCounter cmdId : Nat) (dataBytes : List Nat) : List Nat :=
  let body := mcuBody msgCounter cmdId dataBytes
  let crc := body.foldl crcTableStep 0xFFFF
  [0xFF, 0xFE, (crc >>> 8) &&& 0xFF, crc &&& 0xFF] ++ body

/-! ### JavaScript number values

`JSVal` models the IEEE-754 values flowing through the engine: NaN, the
two infinities, or a finite value.  Binary32 decoding into this type is
exact.  Arithmetic on finite values is idealized to exact rational
arithmetic (float64 rounding and the sign of zero are not modelled);
NaN and infinity propagation follows IEEE/JS semantics. -/
inductive JSVal where
  | nan : JSVal
  | inf : Bool → JSVal
  | val : ℚ → JSVal
deriving DecidableEq

namespace JSVal

/-- JS unary minus. -/
def jneg : JSVal → JSVal
  | nan => nan
  | inf s => inf (!s)
  | val q => val (-q)

/-- JS addition. -/
def jadd : JSVal → JSVal → JSVal
  | nan, _ => nan
  | _, nan => nan
  | inf s, inf t => if s = t then inf s else nan
  | inf s, val _ => inf s
  | val _, inf t => inf t
  | val a, val b => val (a + b)

/-- JS subtraction. -/
def jsub (a b : JSVal) : JSVal := jadd a (jneg b)

/-- JS multiplication. -/
def jmul : JSVal → JSVal → JSVal
  | nan, _ => nan
  | _, nan => nan
  | inf s, inf t => inf (s == t)
  | inf s, val q => if q = 0 then nan else inf (if 0 < q then s else !s)
  | val q, inf s => if q = 0 then nan else inf (if 0 < q then s else !s)
  | val a, val b => val (a * b)

/-- JS division (used only with nonzero finite divisors in the engine). -/
def jdiv : JSVal → JSVal → JSVal
  | nan, _ => nan
  | _, nan => nan
  | inf _, inf _ => nan
  | inf s, val q => if 0 ≤ q then inf s else inf (!s)
  | val _, inf _ => val 0
  | val a, val b =>
    if b = 0 then (if a = 0 then nan else if 0 < a then inf true else inf false)
    else val (a / b)

/-- JS `isNaN`. -/
def isNan : JSVal → Bool
  | nan => true
  | _ => false

/-- JS `Math.abs`. -/
def jabs : JSVal → JSVal
  | nan => nan
  | inf _ => inf true
  | val q => val |q|

/-- JS `<` (false whenever an operand is NaN). -/
def jlt : JSVal → JSVal → Bool
  | nan, _ => false
  | _, nan => false
  | inf s, inf t => !s && t
  | inf s, val _ => !s
  | val _, inf t => t
  | val a, val b => decide (a < b)

/-- JS `>`. -/
def jgt (a b : JSVal) : Bool := jlt b a

end JSVal

/-! ### Binary32 decoding (`_floatFromIMU` / `_floatFromIMUSwapped`,
injected.js lines 526-538 and 590-603) -/

/-- Exact big-endian IEEE-754 binary32 decoding of four bytes
(`b0` is the most significant byte). -/
def decodeF32BE (b0 b1 b2 b3 : Nat) : JSVal :=
  let s := b0 / 128
  let e := b0 % 128 * 2 + b1 / 128
  let m := b1 % 128 * 65536 + b2 * 256 + b3
  if e = 255 then (if m = 0 then JSVal.inf (s = 0) else JSVal.nan)
  else if e = 0 then
    JSVal.val ((if s = 0 then 1 else -1) * (m : ℚ) / 2 ^ 149)
  else
    JSVal.val ((if s = 0 then 1 else -1) * ((2 ^ 23 + m : ℚ) * 2 ^ e / 2 ^ 150))

/-- Little-endian binary32 decoding (`c0` is the least significant byte);
this is what `getFloat32(0, true)` performs. -/
def decodeF32LE (c0 c1 c2 c3 : Nat) : JSVal := decodeF32BE c3 c2 c1 c0

/-- Reader `_floatFromIMU(bytes, offset)`: copies the four bytes in original
order and reads them as a big-endian float.  Out-of-range accesses in
the source produce `undefined`, which `setUint8` coerces to 0 — exactly
`List.getD _ _ 0`. -/
def floatFromIMU (bytes : List Nat) (offset : Nat) : JSVal :=
  decodeF32BE (bytes.getD offset 0) (bytes.getD (offset + 1) 0)
    (bytes.getD (offset + 2) 0) (bytes.getD (offset + 3) 0)

/-- Reader `_floatFromIMUSwapped(bytes, offset)`: writes the four bytes in
reversed order and reads the result as a little-endian float (net
effect: big-endian interpretation of the original byte order). -/
def floatFromIMUSwapped (bytes : List Nat) (offset : Nat) : JSVal :=
  decodeF32LE (bytes.getD (offset + 3) 0) (bytes.getD (offset + 2) 0)
    (bytes.getD (offset + 1) 0) (bytes.getD offset 0)

/-! ### Orientation math (injected.js lines 605-636) -/

/-- A quaternion of JS values, field order as in the source literals. -/
structure JQuat where
  w : JSVal
  x : JSVal
  y : JSVal
  z : JSVal
deriving DecidableEq

/-- The Euler triple stored in `this.rotation` (`{ yaw, pitch, roll }`). -/
structure JRot where
  yaw : JSVal
  pitch : JSVal
  roll : JSVal
deriving DecidableEq

/-- Product `_multiplyQuaternions(a, b)` (Hamilton product, source formulas with
JS left-to-right association). -/
def multiplyQuaternions (a b : JQuat) : JQuat where
  w := JSVal.jsub (JSVal.jsub (JSVal.jsub (JSVal.jmul a.w b.w)
        (JSVal.jmul a.x b.x)) (JSVal.jmul a.y b.y)) (JSVal.jmul a.z b.z)
  x := JSVal.jsub (JSVal.jadd (JSVal.jadd (JSVal.jmul a.w b.x)
        (JSVal.jmul a.x b.w)) (JSVal.jmul a.y b.z)) (JSVal.jmul a.z b.y)
  y := JSVal.jadd (JSVal.jadd (JSVal.jsub (JSVal.jmul a.w b.y)
        (JSVal.jmul a.x b.z)) (JSVal.jmul a.y b.w)) (JSVal.jmul a.z b.x)
  z := JSVal.jadd (JSVal.jsub (JSVal.jadd (JSVal.jmul a.w b.z)
        (JSVal.jmul a.x b.y)) (JSVal.jmul a.y b.x)) (JSVal.jmul a.z b.w)

/-- Conjugation `_conjugateQuaternion(q)`. -/
def conjugateQuaternion (q : JQuat) : JQuat where
  w := q.w
  x := JSVal.jneg q.x
  y := JSVal.jneg q.y
  z := JSVal.jneg q.z

/-- The exact value of the float64 constant `Math.PI`. -/
def piF64 : JSVal := JSVal.val (884279719003555 / 281474976710656)

/-- The host's `Math.cos` / `Math.sin`.  These transcendental functions
have no exact rational model, so the engine is parametrized by them;
none of the verified properties depends on their values. -/
structure FloatInterp where
  cosv : JSVal → JSVal
  sinv : JSVal → JSVal

/-- A closed dummy interpretation used to instantiate concrete runs of
the engine on paths that never consult `cos`/`sin`, or where their
values are irrelevant. -/
def nanInterp : FloatInterp where
  cosv := fun _ => JSVal.nan
  sinv := fun _ => JSVal.nan

/-- Conversion `_eulerToQuaternion(roll, pitch, yaw)`: degree→radian conversion via
`x * Math.PI / 180`, half-angle sines/cosines, intrinsic Z-Y-X
composition (source formulas verbatim). -/
def eulerToQuaternion (I : FloatInterp) (roll pitch yaw : JSVal) : JQuat :=
  let r := JSVal.jdiv (JSVal.jmul roll piF64) (JSVal.val 180)
  let p := JSVal.jdiv (JSVal.jmul pitch piF64) (JSVal.val 180)
  let y := JSVal.jdiv (JSVal.jmul yaw piF64) (JSVal.val 180)
  let cy := I.cosv (JSVal.jmul y (JSVal.val (1/2)))
  let sy := I.sinv (JSVal.jmul y (JSVal.val (1/2)))
  let cp := I.cosv (JSVal.jmul p (JSVal.val (1/2)))
  let sp := I.sinv (JSVal.jmul p (JSVal.val (1/2)))
  let cr := I.cosv (JSVal.jmul r (JSVal.val (1/2)))
  let sr := I.sinv (JSVal.jmul r (JSVal.val (1/2)))
  { w := JSVal.jadd (JSVal.jmul (JSVal.jmul cr cp) cy)
          (JSVal.jmul (JSVal.jmul sr sp) sy)
    x := JSVal.jsub (JSVal.jmul (JSVal.jmul sr cp) cy)
          (JSVal.jmul (JSVal.jmul cr sp) sy)
    y := JSVal.jadd (JSVal.jmul (JSVal.jmul cr sp) cy)
          (JSVal.jmul (JSVal.jmul sr cp) sy)
    z := JSVal.jsub (JSVal.jmul (JSVal.jmul cr cp) sy)
          (JSVal.jmul (JSVal.jmul sr sp) cy) }

/-! ### Orientation state, notifier and parsers
(injected.js lines 147-159, 436-588, 638-640, 672-684) -/

/-- The engine's mutable state: current quaternion, calibration offset,
stored Euler triple, and the two subscriber registries (JS `Set`s iterate
in insertion order, modelled as lists of subscriber identifiers). -/
structure VState where
  quaternion : JQuat
  calibrationOffset : JQuat
  rotation : JRot
  callbacks : List Nat
  callbacksRot : List Nat
deriving DecidableEq

/-- Observable effects of processing one report. -/
inductive VEvent where
  | quatCb (id : Nat) (q : JQuat)
  | rotCb (id : Nat) (r : JRot)
  | post (q : JQuat) (r : JRot)
deriving DecidableEq

/-- Notifier `_notifyCallbacks()`: every quaternion subscriber in registration
order, then every Euler subscriber in registration order, then the
cross-tab `postMessage`. -/
def notifyCallbacks (s : VState) : List VEvent :=
  s.callbacks.map (fun id => VEvent.quatCb id s.quaternion)
    ++ s.callbacksRot.map (fun id => VEvent.rotCb id s.rotation)
    ++ [VEvent.post s.quaternion s.rotation]

/-- Operation `recenter()`: snapshot the current quaternion as the new offset. -/
def recenter (s : VState) : VState := { s with calibrationOffset := s.quaternion }

/-- The axis-remapped Euler angles decoded from a Viture IMU packet
(payload offset 18): `yaw = -raw0`, `roll = -raw1`, `pitch = raw2`. -/
def vitureAngles (bytes : List Nat) : JRot :=
  let raw0 := floatFromIMUSwapped bytes 18
  let raw1 := floatFromIMUSwapped bytes 22
  let raw2 := floatFromIMUSwapped bytes 26
  { yaw := JSVal.jneg raw0, pitch := raw2, roll := JSVal.jneg raw1 }

/-- The validity test of `_parseVitureImuPacket`:
`isNaN(roll) || isNaN(pitch) || isNaN(yaw) || Math.abs(roll) > 180 ||
Math.abs(pitch) > 180 || Math.abs(yaw) > 180`. -/
def vitureInvalid (roll pitch yaw : JSVal) : Bool :=
  JSVal.isNan roll || JSVal.isNan pitch || JSVal.isNan yaw
    || JSVal.jgt (JSVal.jabs roll) (JSVal.val 180)
    || JSVal.jgt (JSVal.jabs pitch) (JSVal.val 180)
    || JSVal.jgt (JSVal.jabs yaw) (JSVal.val 180)

/-- Parser `_parseVitureImuPacket(bytes)`.  Note: the source assigns
`this.rotation = { yaw, pitch, roll }` *before* the validity check, so
the stored Euler triple is updated even for rejected samples. -/
def parseVitureImuPacket (I : FloatInterp) (s : VState) (bytes : List Nat) :
    VState × List VEvent :=
  let a := vitureAngles bytes
  let s1 := { s with rotation := a }
  if vitureInvalid a.roll a.pitch a.yaw then (s1, [])
  else
    let q := eulerToQuaternion I a.roll a.pitch a.yaw
    let cal := multiplyQuaternions (conjugateQuaternion s1.calibrationOffset) q
    let s2 := { s1 with quaternion := cal }
    (s2, notifyCallbacks s2)

/-- The four floats of a legacy quaternion report (offsets 20/24/28/32,
big-endian, order w x y z). -/
def quatSample (bytes : List Nat) : JQuat where
  w := floatFromIMU bytes 20
  x := floatFromIMU bytes 24
  y := floatFromIMU bytes 28
  z := floatFromIMU bytes 32

/-- Sum `w*w + x*x + y*y + z*z` as computed in the source. -/
def jsumSquares (q : JQuat) : JSVal :=
  JSVal.jadd (JSVal.jadd (JSVal.jadd (JSVal.jmul q.w q.w)
    (JSVal.jmul q.x q.x)) (JSVal.jmul q.y q.y)) (JSVal.jmul q.z q.z)

/-- The rejection test of `_parseQuaternionData`.  The source computes
`mag = Math.sqrt(sq)` and rejects when `mag < 0.5 || mag > 1.5 ||
isNaN(mag)`; since square root has no computable exact model, the test
is expressed on the squared magnitude — over the reals,
`√sq < 0.5 ↔ sq < 0.25` and `√sq > 1.5 ↔ sq > 2.25` for `sq ≥ 0`, a
negative `sq` makes `mag` NaN (rejected, and covered by `sq < 1/4`), a
NaN or infinite `sq` propagates to `mag` (rejected). -/
def quatMagInvalid : JSVal → Bool
  | JSVal.nan => true
  | JSVal.inf _ => true
  | JSVal.val q => decide (q < 1/4) || decide (9/4 < q)

/-- The validate-calibrate-store-notify tail of `_parseQuaternionData`,
acting on the already decoded raw quaternion. -/
def applyQuatSample (s : VState) (q : JQuat) : VState × List VEvent :=
  if quatMagInvalid (jsumSquares q) then (s, [])
  else
    let cal := multiplyQuaternions (conjugateQuaternion s.calibrationOffset) q
    let s1 := { s with quaternion := cal }
    (s1, notifyCallbacks s1)

/-- Parser `_parseQuaternionData(bytes)`. -/
def parseQuaternionData (s : VState) (bytes : List Nat) : VState × List VEvent :=
  applyQuatSample s (quatSample bytes)

/-- Parser `_parseEulerData(bytes)`: three big-endian floats at 0/4/8 taken as
roll/pitch/yaw; no validation of any kind in the source. -/
def parseEulerData (I : FloatInterp) (s : VState) (bytes : List Nat) :
    VState × List VEvent :=
  let roll := floatFromIMU bytes 0
  let pitch := floatFromIMU bytes 4
  let yaw := floatFromIMU bytes 8
  let q := eulerToQuaternion I roll pitch yaw
  let cal := multiplyQuaternions (conjugateQuaternion s.calibrationOffset) q
  let s1 := { s with quaternion := cal }
  (s1, notifyCallbacks s1)

/-- Classifier `_handleInputReport`, classification stage: structural
classification by length and header bytes, in source precedence order.
The handler's diagnostic-log preamble (lines 447-451), which can throw
on very short buffers, is modelled on top of this in
`handleInputReportFull`; on every path where it does not throw it
affects neither classification nor engine state. -/
def handleInputReport (I : FloatInterp) (s : VState) (bytes : List Nat) :
    VState × List VEvent :=
  if 30 ≤ bytes.length ∧ bytes.getD 0 0 = 0xFF ∧ bytes.getD 1 0 = 0xFC then
    parseVitureImuPacket I s bytes
  else if 36 ≤ bytes.length then
    parseQuaternionData s bytes
  else if 12 ≤ bytes.length then
    parseEulerData I s bytes
  else
    (s, [])

/-- Condition of the diagnostic log in `_handleInputReport` (line 447):
`count <= 10 || count % 500 === 0`, where `count` is the post-increment
per-device report counter `this._reportCounts[deviceIndex]`. -/
def reportLogged (count : Nat) : Bool :=
  decide (count ≤ 10) || decide (count % 500 = 0)

/-- Full `_handleInputReport` body for a given post-increment per-device
report count (the counter updates themselves are kept outside the engine
state, as the explicit `count` argument).  When the log fires, the
source evaluates `bytes[0].toString(16)` and `bytes[1].toString(16)`
*before any length guard*: on a buffer shorter than 2 bytes the indexing
yields `undefined` and `.toString` throws a TypeError, aborting the
handler with no state change (`none` here); otherwise — the remaining
log expressions are bounds-safe — classification proceeds. -/
def handleInputReportFull (count : Nat) (I : FloatInterp) (s : VState)
    (bytes : List Nat) : Option (VState × List VEvent) :=
  if reportLogged count then
    match bytes[0]?, bytes[1]? with
    | some _, some _ => some (handleInputReport I s bytes)
    | _, _ => none
  else some (handleInputReport I s bytes)

/-! ### Bounds-checked variants of the report pipeline

These mirror the handler step for step, but perform every byte access
through `l[i]?`, returning `none` on the first out-of-bounds index.
They exist to settle the memory-safety claim.  The classification stage
and the parsers are covered by `handleInputReportChecked`; the full
handler, whose diagnostic-log preamble reads the two header bytes
before any length guard, is covered by `handleInputReportFullChecked`. -/

def floatFromIMUChecked (bytes : List Nat) (offset : Nat) : Option JSVal := do
  let b0 ← bytes[offset]?
  let b1 ← bytes[offset + 1]?
  let b2 ← bytes[offset + 2]?
  let b3 ← bytes[offset + 3]?
  pure (decodeF32BE b0 b1 b2 b3)

def floatFromIMUSwappedChecked (bytes : List Nat) (offset : Nat) : Option JSVal := do
  let b3 ← bytes[offset + 3]?
  let b2 ← bytes[offset + 2]?
  let b1 ← bytes[offset + 1]?
  let b0 ← bytes[offset]?
  pure (decodeF32LE b3 b2 b1 b0)

def vitureAnglesChecked (bytes : List Nat) : Option JRot := do
  let raw0 ← floatFromIMUSwappedChecked bytes 18
  let raw1 ← floatFromIMUSwappedChecked bytes 22
  let raw2 ← floatFromIMUSwappedChecked bytes 26
  pure { yaw := JSVal.jneg raw0, pitch := raw2, roll := JSVal.jneg raw1 }

def parseVitureImuPacketChecked (I : FloatInterp) (s : VState)
    (bytes : List Nat) : Option (VState × List VEvent) := do
  let a ← vitureAnglesChecked bytes
  let s1 := { s with rotation := a }
  if vitureInvalid a.roll a.pitch a.yaw then pure (s1, [])
  else
    let q := eulerToQuaternion I a.roll a.pitch a.yaw
    let cal := multiplyQuaternions (conjugateQuaternion s1.calibrationOffset) q
    let s2 := { s1 with quaternion := cal }
    pure (s2, notifyCallbacks s2)

def quatSampleChecked (bytes : List Nat) : Option JQuat := do
  let w ← floatFromIMUChecked bytes 20
  let x ← floatFromIMUChecked bytes 24
  let y ← floatFromIMUChecked bytes 28
  let z ← floatFromIMUChecked bytes 32
  pure { w := w, x := x, y := y, z := z }

def parseQuaternionDataChecked (s : VState) (bytes : List Nat) :
    Option (VState × List VEvent) := do
  let q ← quatSampleChecked bytes
  pure (applyQuatSample s q)

def parseEulerDataChecked (I : FloatInterp) (s : VState) (bytes : List Nat) :
    Option (VState × List VEvent) := do
  let roll ← floatFromIMUChecked bytes 0
  let pitch ← floatFromIMUChecked bytes 4
  let yaw ← floatFromIMUChecked bytes 8
  let q := eulerToQuaternion I roll pitch yaw
  let cal := multiplyQuaternions (conjugateQuaternion s.calibrationOffset) q
  let s1 := { s with quaternion := cal }
  pure (s1, notifyCallbacks s1)

/-- Bounds-checked classification stage of `_handleInputReport`: in this
stage the header bytes are only read once the length-30 guard has passed
(JS `&&` short-circuit).  This deliberately covers only the
classification-and-parsing part; the diagnostic-log header reads that
precede it in the source are added in `handleInputReportFullChecked`. -/
def handleInputReportChecked (I : FloatInterp) (s : VState)
    (bytes : List Nat) : Option (VState × List VEvent) :=
  let rest : Option (VState × List VEvent) :=
    if 36 ≤ bytes.length then parseQuaternionDataChecked s bytes
    else if 12 ≤ bytes.length then parseEulerDataChecked I s bytes
    else some (s, [])
  if 30 ≤ bytes.length then
    match bytes[0]?, bytes[1]? with
    | some b0, some b1 =>
      if b0 = 0xFF ∧ b1 = 0xFC then parseVitureImuPacketChecked I s bytes
      else rest
    | _, _ => none
  else rest

/-- Bounds-checked full `_handleInputReport`: when the diagnostic log
fires, the two header-byte accesses happen first, before any length
guard; then the checked classification stage runs. -/
def handleInputReportFullChecked (count : Nat) (I : FloatInterp)
    (s : VState) (bytes : List Nat) : Option (VState × List VEvent) :=
  if reportLogged count then
    match bytes[0]?, bytes[1]? with
    | some _, some _ => handleInputReportChecked I s bytes
    | _, _ => none
  else handleInputReportChecked I s bytes

/-! ### Device session manager (`connect`, injected.js lines 218-275)

Environment interactions are made explicit as inputs: `supported` is
`VitureHID.isSupported()` (`'hid' in navigator`), `selectedCount` the
number of devices returned by `navigator.hid.requestDevice`, and
`vitureDevices` the already-authorized matching interfaces returned by
`navigator.hid.getDevices` after filtering.  Each interface carries
whether it is already open and whether an `open()` attempt would
succeed.  The open loop `try`s `open()` + `addEventListener` per device
and only `console.warn`s on failure; `_startIMU` wraps all its sends in
`try`/`catch` and never throws.  After the loop the source
unconditionally sets `this.device = vitureDevices[0]`,
`this._allDevices = vitureDevices` and `this.connected = true`. -/

/-- One physical HID interface as `connect` sees it. -/
structure HDevice where
  alreadyOpened : Bool
  openSucceeds : Bool
deriving DecidableEq

/-- An interface ends up open if it was already open or its `open()`
succeeded; the input-report listener is attached exactly then. -/
def deviceOpenedAfter (d : HDevice) : Bool := d.alreadyOpened || d.openSucceeds

/-- The session state `connect` leaves behind on success. -/
structure ConnSession where
  device : Option HDevice
  allDevices : List HDevice
  connected : Bool
  listeners : List Nat
deriving DecidableEq

/-- Operation `connect()`: throws when WebHID is unsupported or no device was
selected; otherwise opens what it can (skipping failures) and returns a
connected session holding every matched interface. -/
def connectModel (supported : Bool) (selectedCount : Nat)
    (vitureDevices : List HDevice) : Except String ConnSession :=
  if !supported then Except.error "WebHID not supported"
  else if selectedCount = 0 then Except.error "No Viture device selected"
  else Except.ok
    { device := vitureDevices.head?
      allDevices := vitureDevices
      connected := true
      listeners := (List.range vitureDevices.length).filter
        (fun i => deviceOpenedAfter (vitureDevices.getD i ⟨false, false⟩)) }

/-- Success test for `Except`. -/
def isOkB : Except String ConnSession → Bool
  | Except.ok _ => true
  | Except.error _ => false

/-! ### Concrete states and buffers used in counterexamples and witnesses -/

/-- The engine state set up by the constructor (injected.js lines
147-159), with subscriber registries as given. -/
def initState : VState where
  quaternion := ⟨JSVal.val 1, JSVal.val 0, JSVal.val 0, JSVal.val 0⟩
  calibrationOffset := ⟨JSVal.val 1, JSVal.val 0, JSVal.val 0, JSVal.val 0⟩
  rotation := ⟨JSVal.val 0, JSVal.val 0, JSVal.val 0⟩
  callbacks := []
  callbacksRot := []

/-- A freshly constructed engine with one quaternion subscriber (id 0)
and one Euler subscriber (id 1). -/
def obsState : VState := { initState with callbacks := [0], callbacksRot := [1] }

/-- A quaternion of four finite values. -/
def ratQuat (w x y z : ℚ) : JQuat :=
  ⟨JSVal.val w, JSVal.val x, JSVal.val y, JSVal.val z⟩

/-- The state an accepted quaternion sample leaves behind: the raw
quaternion calibrated against the current offset and stored. -/
def calibratedState (s : VState) (q : JQuat) : VState :=
  { s with quaternion :=
      multiplyQuaternions (conjugateQuaternion s.calibrationOffset) q }

/-- A 30-byte Viture IMU report whose first payload float decodes to 200.0
(i.e. `yaw = -200`, out of range): header `FF FC`, zeros, `43 48 00 00`
at offset 18, zeros. -/
def vitureBadBytes : List Nat :=
  [0xFF, 0xFC] ++ List.replicate 16 0 ++ [0x43, 0x48, 0, 0] ++ List.replicate 8 0

/-- A 40-byte buffer with the Viture header, also long enough for the
legacy-quaternion format. -/
def vitureLongBytes : List Nat := [0xFF, 0xFC] ++ List.replicate 38 0

/-- A 36-byte legacy-quaternion report encoding w=1, x=y=z=0
(`3F 80 00 00` at offset 20). -/
def quatOkBytes : List Nat :=
  List.replicate 20 0 ++ [0x3F, 0x80, 0, 0] ++ List.replicate 12 0

/-- A 36-byte legacy-quaternion report encoding w=0.5, x=y=z=0: squared
magnitude exactly 0.25, the lower acceptance boundary. -/
def quatHalfBytes : List Nat :=
  List.replicate 20 0 ++ [0x3F, 0x00, 0, 0] ++ List.replicate 12 0

/-- A 36-byte legacy-quaternion report encoding x=1 (w=y=z=0)
(`3F 80 00 00` at offset 24). -/
def quatXBytes : List Nat :=
  List.replicate 24 0 ++ [0x3F, 0x80, 0, 0] ++ List.replicate 8 0

/-- A 12-byte legacy-Euler report whose roll float is NaN
(`7F C0 00 00` at offset 0). -/
def eulerNanBytes : List Nat := [0x7F, 0xC0, 0, 0] ++ List.replicate 8 0

/-! ### Proofs: equivalence of the table-driven CRC with the bit-by-bit
reference, and the command-builder contract -/

lemma and_FFFF (x : Nat) : x &&& 0xFFFF = x % 65536 := by
  rw [show (0xFFFF : Nat) = 2 ^ 16 - 1 by norm_num,
    Nat.and_pow_two_sub_one_eq_mod]

lemma and_FF (x : Nat) : x &&& 0xFF = x % 256 := by
  rw [show (0xFF : Nat) = 2 ^ 8 - 1 by norm_num,
    Nat.and_pow_two_sub_one_eq_mod]

/-- Shifting left distributes over XOR. -/
lemma shiftLeft_xor_distrib (a b n : Nat) :
    (a ^^^ b) <<< n = (a <<< n) ^^^ (b <<< n) := by
  apply Nat.eq_of_testBit_eq
  intro i
  simp only [Nat.testBit_shiftLeft, Nat.testBit_xor]
  by_cases h : n ≤ i <;> simp [h, ge_iff_le]

/-- Numbers below `2 ^ 15` have bit 15 clear, so AND with `0x8000` is zero. -/
lemma and_top_eq_zero {d : Nat} (hd : d < 32768) : d &&& 0x8000 = 0 := by
  apply Nat.eq_of_testBit_eq
  intro i
  simp only [Nat.testBit_and, Nat.zero_testBit]
  rcases Nat.lt_trichotomy i 15 with h | h | h
  · have h2 : Nat.testBit 0x8000 i = false := by
      rw [show (0x8000 : Nat) = 2 ^ 15 by norm_num, Nat.testBit_two_pow]
      simp [Nat.ne_of_gt h]
    simp [h2]
  · subst h
    have hd' : d < 2 ^ 15 := by
      rw [show (2 : Nat) ^ 15 = 32768 by norm_num]
      exact hd
    simp [Nat.testBit_lt_two_pow hd']
  · have hd' : d < 2 ^ i := by
      calc d < 32768 := hd
        _ = 2 ^ 15 := by norm_num
        _ ≤ 2 ^ i := Nat.pow_le_pow_right (by norm_num) h.le
    simp [Nat.testBit_lt_two_pow hd']

/-- A single reference bit step is affine: a perturbation below `2 ^ 15`
passes through the step, shifted up by one. -/
lemma crcBitStep_xor (c d : Nat) (hd : d < 32768) :
    crcBitStep (c ^^^ d) = crcBitStep c ^^^ (d <<< 1) := by
  have htop : (c ^^^ d) &&& 0x8000 = c &&& 0x8000 := by
    rw [Nat.and_xor_distrib_right, and_top_eq_zero hd, Nat.xor_zero]
  have hdmask : (d <<< 1) &&& 0xFFFF = d <<< 1 := by
    rw [and_FFFF, Nat.shiftLeft_eq, show (2 : Nat) ^ 1 = 2 by norm_num]
    omega
  unfold crcBitStep
  rw [htop]
  by_cases h : c &&& 0x8000 ≠ 0
  · rw [if_pos h, if_pos h]
    rw [shiftLeft_xor_distrib]
    rw [show (c <<< 1) ^^^ (d <<< 1) ^^^ 0x1021
        = ((c <<< 1) ^^^ 0x1021) ^^^ (d <<< 1) by
      rw [Nat.xor_assoc, Nat.xor_assoc, Nat.xor_comm (d <<< 1)]]
    rw [Nat.and_xor_distrib_right, hdmask]
  · rw [if_neg h, if_neg h]
    rw [shiftLeft_xor_distrib, Nat.and_xor_distrib_right, hdmask]

/-- Iterated form of `crcBitStep_xor`: after `n` bit steps the perturbation
has been shifted up `n` places. -/
lemma crcBitStep_iterate_xor :
    ∀ (n c d : Nat), d * 2 ^ n < 65536 →
      crcBitStep^[n] (c ^^^ d) = crcBitStep^[n] c ^^^ (d <<< n) := by
  intro n
  induction n with
  | zero => intro c d _; simp [Nat.shiftLeft_eq]
  | succ n ih =>
    intro c d hbound
    have hp : (2 : Nat) ≤ 2 ^ (n + 1) := by
      calc (2 : Nat) = 2 ^ 1 := by norm_num
        _ ≤ 2 ^ (n + 1) := Nat.pow_le_pow_right (by norm_num) (by omega)
    have hd2 : d * 2 < 65536 :=
      lt_of_le_of_lt (Nat.mul_le_mul (le_refl d) hp) hbound
    have hd15 : d < 32768 := by omega
    rw [Function.iterate_succ_apply, Function.iterate_succ_apply]
    rw [crcBitStep_xor c d hd15]
    have hnext : (d <<< 1) * 2 ^ n < 65536 := by
      rw [Nat.shiftLeft_eq]
      calc d * 2 ^ 1 * 2 ^ n = d * 2 ^ (n + 1) := by ring
        _ < 65536 := hbound
    rw [ih (crcBitStep c) (d <<< 1) hnext, ← Nat.shiftLeft_add]
    rw [Nat.add_comm 1 n]

set_option maxRecDepth 4000 in
/-- For table indexes (below 256) the table entry is exactly eight
reference bit steps applied to the byte placed in the top half. -/
lemma crc_table_eq_bitSteps :
    ∀ t < 256, CRC_TABLE t = crcBitStep^[8] (t <<< 8) := by decide

/-- XOR shuffle used to split a state into high and low parts. -/
lemma xor_shuffle (x m s : Nat) : ((x ^^^ m) ^^^ s) ^^^ m = x ^^^ s := by
  apply Nat.eq_of_testBit_eq
  intro i
  simp only [Nat.testBit_xor]
  cases x.testBit i <;> cases m.testBit i <;> cases s.testBit i <;> rfl

/-- XOR with the low byte `c ^^^ (c &&& 0xFF)` clears the low byte of `c`. -/
lemma clear_low_byte (c : Nat) : c ^^^ (c &&& 0xFF) = (c >>> 8) <<< 8 := by
  apply Nat.eq_of_testBit_eq
  intro i
  simp only [Nat.testBit_xor, Nat.testBit_and, Nat.testBit_shiftLeft,
    Nat.testBit_shiftRight]
  have h255 : (0xFF : Nat) = 2 ^ 8 - 1 := by norm_num
  rw [h255, Nat.testBit_two_pow_sub_one]
  by_cases h : i < 8
  · simp [h, Nat.not_le.mpr h, ge_iff_le]
  · have h8 : 8 ≤ i := Nat.not_lt.mp h
    have he : 8 + (i - 8) = i := by omega
    simp [h, h8, he, ge_iff_le]

/-- The fundamental byte-step equivalence: on 16-bit states and byte
inputs, one table-driven step equals the bit-by-bit byte step. -/
lemma crcTableStep_eq_crcBitByte (c b : Nat) (hc : c < 65536) (hb : b < 256) :
    crcTableStep c b = crcBitByte c b := by
  have hhi : c >>> 8 < 256 := by
    rw [Nat.shiftRight_eq_div_pow]
    norm_num
    omega
  have hidx : (c >>> 8) ^^^ b < 256 := by
    have : (c >>> 8) ^^^ b < 2 ^ 8 :=
      Nat.xor_lt_two_pow (by norm_num; omega) (by norm_num; omega)
    norm_num at this
    omega
  have hidxmask : ((c >>> 8) ^^^ b) &&& 0xFF = (c >>> 8) ^^^ b := by
    rw [and_FF, Nat.mod_eq_of_lt hidx]
  have hlo : c &&& 0xFF < 256 := by
    rw [and_FF]
    omega
  have hpert : (c &&& 0xFF) * 2 ^ 8 < 65536 := by
    norm_num
    omega
  have hsplit : (((c >>> 8) ^^^ b) <<< 8) ^^^ (c &&& 0xFF) = c ^^^ (b <<< 8) := by
    rw [shiftLeft_xor_distrib, ← clear_low_byte c]
    exact xor_shuffle c (c &&& 0xFF) (b <<< 8)
  have hshift : (c <<< 8) &&& 0xFFFF = (c &&& 0xFF) <<< 8 := by
    rw [and_FFFF, and_FF, Nat.shiftLeft_eq, Nat.shiftLeft_eq]
    norm_num
    rw [show (65536 : Nat) = 256 * 256 by norm_num, Nat.mul_mod_mul_right]
  have htblmask : CRC_TABLE ((c >>> 8) ^^^ b) &&& 0xFFFF
      = CRC_TABLE ((c >>> 8) ^^^ b) := by
    unfold CRC_TABLE
    rw [Nat.and_assoc, Nat.and_self]
  have hR : crcBitByte c b
      = CRC_TABLE ((c >>> 8) ^^^ b) ^^^ ((c &&& 0xFF) <<< 8) := by
    unfold crcBitByte
    rw [← hsplit, crcBitStep_iterate_xor 8 _ _ hpert,
      ← crc_table_eq_bitSteps _ hidx]
  have hL : crcTableStep c b
      = ((c &&& 0xFF) <<< 8) ^^^ CRC_TABLE ((c >>> 8) ^^^ b) := by
    unfold crcTableStep
    rw [hidxmask, Nat.and_xor_distrib_right, hshift, htblmask]
  rw [hL, hR, Nat.xor_comm]

/-- Step `crcTableStep` keeps the state within 16 bits. -/
lemma crcTableStep_lt (c b : Nat) : crcTableStep c b < 65536 := by
  unfold crcTableStep
  rw [and_FFFF]
  exact Nat.mod_lt _ (by norm_num)

/-- Folding the table-driven step over a byte list agrees with folding the
bit-by-bit byte step, for any 16-bit initial state. -/
lemma foldl_crcTableStep_eq :
    ∀ (l : List Nat) (c : Nat), c < 65536 → (∀ x ∈ l, x < 256) →
      l.foldl crcTableStep c = l.foldl crcBitByte c := by
  intro l
  induction l with
  | nil => intro c _ _; rfl
  | cons b t ih =>
    intro c hc hl
    have hb : b < 256 := hl b (List.mem_cons_self b t)
    have ht : ∀ x ∈ t, x < 256 := fun x hx => hl x (List.mem_cons_of_mem b hx)
    simp only [List.foldl_cons]
    rw [← crcTableStep_eq_crcBitByte c b hc hb]
    exact ih (crcTableStep c b) (crcTableStep_lt c b) ht

/-- C2: the table-driven `calcCrc16` coincides with the bit-by-bit
reference CRC-16/CCITT (MSB-first, polynomial 0x1021, initial value
0xFFFF, no final XOR) on every byte array, start index and length, and
the checksum of an empty range is 0xFFFF.  (Purity is inherent in the
embedding: `calcCrc16` is a function of its arguments.) -/
theorem calcCrc16_eq_crcBitRef (data : List Nat) (start len : Nat)
    (hbytes : ∀ b ∈ data, b < 256) :
    calcCrc16 data start len = crcBitRef data start len ∧
    calcCrc16 data start 0 = 0xFFFF := by
  constructor
  · unfold calcCrc16 crcBitRef
    apply foldl_crcTableStep_eq _ 0xFFFF (by norm_num)
    intro x hx
    exact hbytes x (List.drop_subset start data (List.take_subset len _ hx))
  · unfold calcCrc16
    simp

/-- Witness for C2 at a concrete buffer. -/
theorem calcCrc16_eq_crcBitRef_witness :
    (∀ b ∈ [0x12, 0x34, 0xAB], b < 256) ∧
      (calcCrc16 [0x12, 0x34, 0xAB] 0 3 = crcBitRef [0x12, 0x34, 0xAB] 0 3 ∧
        calcCrc16 [0x12, 0x34, 0xAB] 0 0 = 0xFFFF) :=
  ⟨by decide, calcCrc16_eq_crcBitRef [0x12, 0x34, 0xAB] 0 3 (by decide)⟩

lemma mcuBody_length (m c : Nat) (d : List Nat) :
    (mcuBody m c d).length = 15 + d.length := by
  simp [mcuBody]
  omega

lemma foldl_crcTableStep_lt (l : List Nat) :
    ∀ c : Nat, c < 65536 → l.foldl crcTableStep c < 65536 := by
  induction l with
  | nil => intro c hc; exact hc
  | cons b t ih =>
    intro c _
    simpa using ih (crcTableStep c b) (crcTableStep_lt c b)

lemma buildMcuCommand_eq (m c : Nat) (d : List Nat) :
    buildMcuCommand m c d
      = [0xFF, 0xFE,
          ((mcuBody m c d).foldl crcTableStep 0xFFFF >>> 8) &&& 0xFF,
          (mcuBody m c d).foldl crcTableStep 0xFFFF &&& 0xFF]
        ++ mcuBody m c d := rfl

/-- C1: `buildMcuCommand` always yields a packet of length
`19 + len(payload)`, whose first two bytes are `0xFF 0xFE`, whose last
byte is `0x03`, and whose bytes `[2:4)` hold, big-endian, exactly the
CRC-16 recomputed by `calcCrc16` over bytes `[4:end)` of that same
packet. -/
theorem buildMcuCommand_spec (m c : Nat) (d : List Nat) :
    (buildMcuCommand m c d).length = 19 + d.length ∧
    (buildMcuCommand m c d).getD 0 0 = 0xFF ∧
    (buildMcuCommand m c d).getD 1 0 = 0xFE ∧
    (buildMcuCommand m c d).getLast? = some 0x03 ∧
    (buildMcuCommand m c d).getD 2 0 * 256 + (buildMcuCommand m c d).getD 3 0
      = calcCrc16 (buildMcuCommand m c d) 4 ((buildMcuCommand m c d).length - 4) := by
  have hblen : (mcuBody m c d).length = 15 + d.length := mcuBody_length m c d
  have hcrc : (mcuBody m c d).foldl crcTableStep 0xFFFF < 65536 :=
    foldl_crcTableStep_lt _ 0xFFFF (by norm_num)
  refine ⟨?_, rfl, rfl, ?_, ?_⟩
  · rw [buildMcuCommand_eq]
    simp [hblen]
    omega
  · rw [buildMcuCommand_eq]
    unfold mcuBody
    rw [← List.append_assoc, ← List.append_assoc]
    exact List.getLast?_concat _
  · have hdrop : (buildMcuCommand m c d).drop 4 = mcuBody m c d := by
      rw [buildMcuCommand_eq]
      exact List.drop_left' rfl
    have hlen4 : (buildMcuCommand m c d).length - 4 = (mcuBody m c d).length := by
      rw [buildMcuCommand_eq]
      simp
    have hrecomp : calcCrc16 (buildMcuCommand m c d) 4
        ((buildMcuCommand m c d).length - 4)
        = (mcuBody m c d).foldl crcTableStep 0xFFFF := by
      unfold calcCrc16
      rw [hdrop, hlen4, List.take_length]
    have h2 : (buildMcuCommand m c d).getD 2 0
        = ((mcuBody m c d).foldl crcTableStep 0xFFFF >>> 8) &&& 0xFF := rfl
    have h3 : (buildMcuCommand m c d).getD 3 0
        = (mcuBody m c d).foldl crcTableStep 0xFFFF &&& 0xFF := rfl
    rw [hrecomp, h2, h3, and_FF, and_FF, Nat.shiftRight_eq_div_pow,
      show (2 : Nat) ^ 8 = 256 by norm_num]
    omega

/-! ### Report classification (C5) -/

/-- C5: classification uses only length and header bytes, in precedence
order.  A report of length ≥ 30 with header `0xFF 0xFC` is always
dispatched to the Viture IMU parser — never to the legacy parsers, even
when its length also satisfies their minimums; otherwise length ≥ 36
goes to the legacy-quaternion parser, length ≥ 12 to the legacy-Euler
parser, and anything shorter is discarded with no state change. -/
theorem classifier_precedence (I : FloatInterp) (s : VState) (bytes : List Nat) :
    (30 ≤ bytes.length → bytes.getD 0 0 = 0xFF → bytes.getD 1 0 = 0xFC →
      handleInputReport I s bytes = parseVitureImuPacket I s bytes)
    ∧ (¬(30 ≤ bytes.length ∧ bytes.getD 0 0 = 0xFF ∧ bytes.getD 1 0 = 0xFC) →
        36 ≤ bytes.length →
        handleInputReport I s bytes = parseQuaternionData s bytes)
    ∧ (¬(30 ≤ bytes.length ∧ bytes.getD 0 0 = 0xFF ∧ bytes.getD 1 0 = 0xFC) →
        bytes.length < 36 → 12 ≤ bytes.length →
        handleInputReport I s bytes = parseEulerData I s bytes)
    ∧ (bytes.length < 12 → handleInputReport I s bytes = (s, [])) := by
  unfold handleInputReport
  refine ⟨?_, ?_, ?_, ?_⟩
  · intro h30 h0 h1
    rw [if_pos ⟨h30, h0, h1⟩]
  · intro hn h36
    rw [if_neg hn, if_pos h36]
  · intro hn h36 h12
    rw [if_neg hn, if_neg (by omega), if_pos h12]
  · intro h12
    rw [if_neg (by rintro ⟨h, -, -⟩; omega), if_neg (by omega), if_neg (by omega)]

/-- Witness for C5: a 40-byte buffer carrying the `FF FC` header (long
enough for the legacy-quaternion format too) goes to the Viture parser. -/
theorem classifier_precedence_witness :
    handleInputReport nanInterp initState vitureLongBytes
      = parseVitureImuPacket nanInterp initState vitureLongBytes :=
  (classifier_precedence nanInterp initState vitureLongBytes).1
    (by decide) (by decide) (by decide)

/-! ### In-bounds processing (C10) -/

lemma getElem?_eq_some_getD {l : List Nat} {i : Nat} (h : i < l.length) :
    l[i]? = some (l.getD i 0) := by
  rw [List.getElem?_eq_getElem h]
  rw [List.getD_eq_getElem l 0 h]

lemma floatFromIMUChecked_eq {bytes : List Nat} {offset : Nat}
    (h : offset + 3 < bytes.length) :
    floatFromIMUChecked bytes offset = some (floatFromIMU bytes offset) := by
  unfold floatFromIMUChecked floatFromIMU
  rw [getElem?_eq_some_getD (by omega), getElem?_eq_some_getD (by omega),
    getElem?_eq_some_getD (by omega), getElem?_eq_some_getD (by omega)]
  rfl

lemma floatFromIMUSwappedChecked_eq {bytes : List Nat} {offset : Nat}
    (h : offset + 3 < bytes.length) :
    floatFromIMUSwappedChecked bytes offset
      = some (floatFromIMUSwapped bytes offset) := by
  unfold floatFromIMUSwappedChecked floatFromIMUSwapped
  rw [getElem?_eq_some_getD (by omega), getElem?_eq_some_getD (by omega),
    getElem?_eq_some_getD (by omega), getElem?_eq_some_getD (by omega)]
  rfl

lemma vitureAnglesChecked_eq {bytes : List Nat} (h : 30 ≤ bytes.length) :
    vitureAnglesChecked bytes = some (vitureAngles bytes) := by
  unfold vitureAnglesChecked vitureAngles
  rw [floatFromIMUSwappedChecked_eq (by omega),
    floatFromIMUSwappedChecked_eq (by omega),
    floatFromIMUSwappedChecked_eq (by omega)]
  rfl

lemma parseVitureImuPacketChecked_eq (I : FloatInterp) (s : VState)
    {bytes : List Nat} (h : 30 ≤ bytes.length) :
    parseVitureImuPacketChecked I s bytes
      = some (parseVitureImuPacket I s bytes) := by
  unfold parseVitureImuPacketChecked parseVitureImuPacket
  rw [vitureAnglesChecked_eq h]
  by_cases hv : vitureInvalid (vitureAngles bytes).roll
      (vitureAngles bytes).pitch (vitureAngles bytes).yaw
  · simp [hv]
  · simp [hv]

lemma quatSampleChecked_eq {bytes : List Nat} (h : 36 ≤ bytes.length) :
    quatSampleChecked bytes = some (quatSample bytes) := by
  unfold quatSampleChecked quatSample
  rw [floatFromIMUChecked_eq (by omega), floatFromIMUChecked_eq (by omega),
    floatFromIMUChecked_eq (by omega), floatFromIMUChecked_eq (by omega)]
  rfl

lemma parseQuaternionDataChecked_eq (s : VState) {bytes : List Nat}
    (h : 36 ≤ bytes.length) :
    parseQuaternionDataChecked s bytes = some (parseQuaternionData s bytes) := by
  unfold parseQuaternionDataChecked parseQuaternionData
  rw [quatSampleChecked_eq h]
  rfl

lemma parseEulerDataChecked_eq (I : FloatInterp) (s : VState)
    {bytes : List Nat} (h : 12 ≤ bytes.length) :
    parseEulerDataChecked I s bytes = some (parseEulerData I s bytes) := by
  unfold parseEulerDataChecked parseEulerData
  rw [floatFromIMUChecked_eq (by omega), floatFromIMUChecked_eq (by omega),
    floatFromIMUChecked_eq (by omega)]
  rfl

/-- Helper for C10: the classification-and-parsing stage is in-bounds on
every buffer — its bounds-checked clone never fails and agrees with the
unchecked run, because each parser reads only indices guaranteed by the
classifier's length guard (Viture IMU: 18..29 under ≥ 30; legacy
quaternion: 20..35 under ≥ 36; legacy Euler: 0..11 under ≥ 12; shorter
buffers touch no payload). -/
lemma handleInputReportChecked_eq (I : FloatInterp) (s : VState)
    (bytes : List Nat) :
    handleInputReportChecked I s bytes = some (handleInputReport I s bytes) := by
  unfold handleInputReportChecked handleInputReport
  by_cases h30 : 30 ≤ bytes.length
  · rw [if_pos h30]
    have h0 : (0 : Nat) < bytes.length := by omega
    have h1 : (1 : Nat) < bytes.length := by omega
    rw [getElem?_eq_some_getD h0, getElem?_eq_some_getD h1]
    show (if bytes.getD 0 0 = 0xFF ∧ bytes.getD 1 0 = 0xFC
        then parseVitureImuPacketChecked I s bytes
        else if 36 ≤ bytes.length then parseQuaternionDataChecked s bytes
        else if 12 ≤ bytes.length then parseEulerDataChecked I s bytes
        else some (s, [])) = _
    by_cases hh : bytes.getD 0 0 = 0xFF ∧ bytes.getD 1 0 = 0xFC
    · rw [if_pos hh, if_pos ⟨h30, hh⟩]
      exact parseVitureImuPacketChecked_eq I s h30
    · have hcomb : ¬(30 ≤ bytes.length ∧ bytes.getD 0 0 = 0xFF
          ∧ bytes.getD 1 0 = 0xFC) := fun hc => hh hc.2
      rw [if_neg hh]
      conv_rhs => rw [if_neg hcomb]
      by_cases h36 : 36 ≤ bytes.length
      · rw [if_pos h36, if_pos h36]
        exact parseQuaternionDataChecked_eq s h36
      · rw [if_neg h36, if_neg h36, if_pos (by omega), if_pos (by omega)]
        exact parseEulerDataChecked_eq I s (by omega)
  · have hcomb : ¬(30 ≤ bytes.length ∧ bytes.getD 0 0 = 0xFF
        ∧ bytes.getD 1 0 = 0xFC) := fun hc => h30 hc.1
    rw [if_neg h30]
    conv_rhs => rw [if_neg hcomb]
    by_cases h36 : 36 ≤ bytes.length
    · exact absurd h36 (by omega)
    · rw [if_neg h36, if_neg h36]
      by_cases h12 : 12 ≤ bytes.length
      · rw [if_pos h12, if_pos h12]
        exact parseEulerDataChecked_eq I s h12
      · rw [if_neg h12, if_neg h12]

/-- Counterexample to C10 as stated: for a device's very first report
(count 1, so the diagnostic log fires) carrying a 1-byte buffer, the
handler aborts — the log preamble reads `bytes[1]` before any length
guard, an index that does not exist in the buffer, and the subsequent
`.toString` call throws.  Processing is therefore neither total nor
in-bounds for every buffer length. -/
theorem inBounds_counterexample :
    handleInputReportFull 1 nanInterp obsState [0x42] = none
    ∧ ([0x42] : List Nat)[1]? = none := by
  decide

/-- C10 amended: the classifier's length guards do discipline every
*parser* read (the bounds-checked clone of the classification stage
always succeeds and agrees with the unchecked run, fourth conjunct via
`handleInputReportChecked_eq` inside the first), and once the two
diagnostic-log header reads are accounted for no other access can fail
(first conjunct); but processing is not total for every buffer length:
whenever the diagnostic log fires (first 10 reports of a device and
every 500th thereafter) the source reads `bytes[0]`/`bytes[1]` before
any length guard, so such a report shorter than 2 bytes accesses a
nonexistent index and the handler throws (third conjunct); every report
of length ≥ 2, and every report whose log does not fire, is processed
to completion (second and fourth conjuncts). -/
theorem inBounds_amended (count : Nat) (I : FloatInterp) (s : VState)
    (bytes : List Nat) :
    handleInputReportFullChecked count I s bytes
      = handleInputReportFull count I s bytes
    ∧ (2 ≤ bytes.length →
        handleInputReportFull count I s bytes
          = some (handleInputReport I s bytes))
    ∧ (reportLogged count = true → bytes.length < 2 →
        handleInputReportFull count I s bytes = none)
    ∧ (reportLogged count = false →
        handleInputReportFull count I s bytes
          = some (handleInputReport I s bytes)) := by
  refine ⟨?_, ?_, ?_, ?_⟩
  · unfold handleInputReportFullChecked handleInputReportFull
    by_cases hl : reportLogged count = true
    · rw [if_pos hl, if_pos hl]
      cases h0 : bytes[0]? with
      | none => rfl
      | some b0 =>
        cases h1 : bytes[1]? with
        | none => rfl
        | some b1 => exact handleInputReportChecked_eq I s bytes
    · rw [if_neg hl, if_neg hl]
      exact handleInputReportChecked_eq I s bytes
  · intro h2
    unfold handleInputReportFull
    by_cases hl : reportLogged count = true
    · rw [if_pos hl, getElem?_eq_some_getD (by omega),
        getElem?_eq_some_getD (by omega)]
    · rw [if_neg hl]
  · intro hl hlen
    unfold handleInputReportFull
    rw [if_pos hl,
      List.getElem?_eq_none (show bytes.length ≤ 1 by omega)]
    cases h0 : bytes[0]? <;> rfl
  · intro hl
    unfold handleInputReportFull
    rw [if_neg (by simp [hl])]

/-- Witness for C10 (amended): a device's first report with a 12-byte
buffer (log fires, headers exist) is processed to completion. -/
theorem inBounds_amended_witness :
    handleInputReportFull 1 nanInterp obsState (List.replicate 12 0)
      = some (handleInputReport nanInterp obsState (List.replicate 12 0)) :=
  (inBounds_amended 1 nanInterp obsState (List.replicate 12 0)).2.1 (by decide)

/-! ### Quaternion magnitude validation (C6) -/

lemma quatMagInvalid_false_iff (sq : JSVal) :
    quatMagInvalid sq = false
      ↔ ∃ q : ℚ, sq = JSVal.val q ∧ 1/4 ≤ q ∧ q ≤ 9/4 := by
  cases sq with
  | nan => simp [quatMagInvalid]
  | inf b => simp [quatMagInvalid]
  | val q =>
    simp only [quatMagInvalid, Bool.or_eq_false_iff, decide_eq_false_iff_not,
      not_lt, JSVal.val.injEq]
    constructor
    · rintro ⟨h1, h2⟩
      exact ⟨q, rfl, h1, h2⟩
    · rintro ⟨q', rfl, h1, h2⟩
      exact ⟨h1, h2⟩

lemma notifyCallbacks_ne_nil (s : VState) : notifyCallbacks s ≠ [] := by
  unfold notifyCallbacks
  simp

/-- C6: a legacy-quaternion report is accepted (state updated and
subscribers notified) iff the squared magnitude `w²+x²+y²+z²` is a
finite value within `[1/4, 9/4]` — i.e. the magnitude `√(w²+x²+y²+z²)`
is numeric and lies in the closed interval `[0.5, 1.5]`; boundary
magnitudes are accepted, out-of-range or NaN magnitudes are rejected
with no state change. -/
theorem quatMagnitude_validation (I : FloatInterp) (s : VState)
    (bytes : List Nat) (h36 : 36 ≤ bytes.length)
    (hhdr : ¬(bytes.getD 0 0 = 0xFF ∧ bytes.getD 1 0 = 0xFC)) :
    ((handleInputReport I s bytes).2 ≠ []
      ↔ ∃ q : ℚ, jsumSquares (quatSample bytes) = JSVal.val q
          ∧ 1/4 ≤ q ∧ q ≤ 9/4)
    ∧ ((handleInputReport I s bytes).2 = [] → (handleInputReport I s bytes).1 = s) := by
  have hd : handleInputReport I s bytes = parseQuaternionData s bytes := by
    unfold handleInputReport
    rw [if_neg (fun hc => hhdr hc.2), if_pos h36]
  rw [hd]
  unfold parseQuaternionData applyQuatSample
  by_cases hv : quatMagInvalid (jsumSquares (quatSample bytes)) = true
  · rw [if_pos hv]
    refine ⟨?_, fun _ => rfl⟩
    rw [← quatMagInvalid_false_iff]
    simp [hv]
  · have hv' : quatMagInvalid (jsumSquares (quatSample bytes)) = false := by
      simpa using hv
    rw [if_neg hv]
    constructor
    · rw [← quatMagInvalid_false_iff, hv']
      simp [notifyCallbacks_ne_nil]
    · intro h
      exact absurd h (notifyCallbacks_ne_nil _)

/-- Witness for C6 at the lower boundary: w = 0.5, x = y = z = 0 gives
squared magnitude exactly 1/4 (magnitude exactly 0.5), which is
accepted: subscribers are notified. -/
theorem quatMagnitude_validation_witness :
    (handleInputReport nanInterp obsState quatHalfBytes).2 ≠ [] :=
  (quatMagnitude_validation nanInterp obsState quatHalfBytes
      (by decide) (by decide)).1.mpr
    ⟨1/4, by with_unfolding_all decide, by norm_num, by norm_num⟩

/-! ### Malformed-sample handling (C4) -/

/-- Counterexample to C4 as stated: for the 30-byte Viture IMU report
whose decoded yaw is −200 (out of range, sample discarded, no subscriber
notified, quaternion and offset untouched) the stored Euler triple does
NOT keep its prior value — the source assigns `this.rotation` before
validating.  The claim that *all* engine state is left unchanged is
false. -/
theorem malformed_counterexample :
    (handleInputReport nanInterp obsState vitureBadBytes).2 = []
    ∧ (handleInputReport nanInterp obsState vitureBadBytes).1.quaternion
        = obsState.quaternion
    ∧ (handleInputReport nanInterp obsState vitureBadBytes).1.calibrationOffset
        = obsState.calibrationOffset
    ∧ (handleInputReport nanInterp obsState vitureBadBytes).1.rotation
        ≠ obsState.rotation := by
  with_unfolding_all decide

/-- C4 amended: a report that is classified into a known format and
fails numeric/range validation is discarded with no subscriber callback,
and the stored quaternion and the calibration offset keep their prior
values; but a rejected Viture-IMU report leaves the stored Euler triple
overwritten with the (invalid) decoded angles, because the source
assigns `this.rotation` before validating.  (Rejected legacy-quaternion
reports leave all state unchanged; legacy-Euler reports are never
rejected.) -/
theorem malformed_amended (I : FloatInterp) (s : VState) (bytes : List Nat) :
    (36 ≤ bytes.length → ¬(bytes.getD 0 0 = 0xFF ∧ bytes.getD 1 0 = 0xFC) →
      quatMagInvalid (jsumSquares (quatSample bytes)) = true →
      handleInputReport I s bytes = (s, []))
    ∧ (30 ≤ bytes.length → bytes.getD 0 0 = 0xFF → bytes.getD 1 0 = 0xFC →
      vitureInvalid (vitureAngles bytes).roll (vitureAngles bytes).pitch
        (vitureAngles bytes).yaw = true →
      handleInputReport I s bytes = ({ s with rotation := vitureAngles bytes }, [])) := by
  constructor
  · intro h36 hhdr hrej
    have hd : handleInputReport I s bytes = parseQuaternionData s bytes := by
      unfold handleInputReport
      rw [if_neg (fun hc => hhdr hc.2), if_pos h36]
    rw [hd]
    unfold parseQuaternionData applyQuatSample
    rw [if_pos hrej]
  · intro h30 h0 h1 hrej
    have hd : handleInputReport I s bytes = parseVitureImuPacket I s bytes := by
      unfold handleInputReport
      rw [if_pos ⟨h30, h0, h1⟩]
    rw [hd]
    unfold parseVitureImuPacket
    rw [if_pos hrej]

/-- Witness for C4 (amended) on the legacy-quaternion side: an
all-zeros 36-byte report has squared magnitude 0 < 1/4 and is rejected
leaving the state fully unchanged. -/
theorem malformed_amended_witness :
    handleInputReport nanInterp obsState (List.replicate 36 0) = (obsState, []) :=
  (malformed_amended nanInterp obsState (List.replicate 36 0)).1
    (by decide) (by decide) (by with_unfolding_all decide)

/-! ### Legacy-Euler reports and NaN (C9) -/

/-- Counterexample to C9 as stated: a 12-byte legacy-Euler report whose
roll float decodes to NaN is NOT rejected — the quaternion is updated
(to a NaN-contaminated value) and subscribers are notified, because
`_parseEulerData` performs no validation whatsoever. -/
theorem eulerNan_counterexample :
    (handleInputReport nanInterp obsState eulerNanBytes).2 ≠ []
    ∧ (handleInputReport nanInterp obsState eulerNanBytes).1.quaternion
        ≠ obsState.quaternion := by
  with_unfolding_all decide

/-- C9 amended: legacy-Euler reports undergo no validation at all — for
every report classified `LegacyEuler` (length ≥ 12, not matching a
higher-precedence format), including those whose decoded floats are NaN,
the quaternion is updated with the calibrated conversion of the decoded
triple and subscribers are notified. -/
theorem eulerNoValidation_amended (I : FloatInterp) (s : VState)
    (bytes : List Nat) (h12 : 12 ≤ bytes.length) (h36 : bytes.length < 36)
    (hhdr : ¬(30 ≤ bytes.length ∧ bytes.getD 0 0 = 0xFF
      ∧ bytes.getD 1 0 = 0xFC)) :
    (handleInputReport I s bytes).2 ≠ []
    ∧ (handleInputReport I s bytes).1.quaternion
        = multiplyQuaternions (conjugateQuaternion s.calibrationOffset)
            (eulerToQuaternion I (floatFromIMU bytes 0) (floatFromIMU bytes 4)
              (floatFromIMU bytes 8))
    ∧ (handleInputReport I s bytes).1.rotation = s.rotation := by
  have hd : handleInputReport I s bytes = parseEulerData I s bytes := by
    unfold handleInputReport
    rw [if_neg hhdr, if_neg (by omega), if_pos h12]
  rw [hd]
  unfold parseEulerData
  exact ⟨notifyCallbacks_ne_nil _, rfl, rfl⟩

/-- Witness for C9 (amended) at the NaN report: processing notifies
subscribers. -/
theorem eulerNoValidation_amended_witness :
    (handleInputReport nanInterp obsState eulerNanBytes).2 ≠ [] :=
  (eulerNoValidation_amended nanInterp obsState eulerNanBytes
    (by decide) (by decide) (by decide)).1

/-! ### Update and notification on accepted samples (C8) -/

/-- Counterexample to C8 as stated: a valid legacy-quaternion report is
accepted and subscribers of both kinds are notified, yet the stored
Euler triple is NOT updated — it keeps its stale prior value (yaw 7),
which is exactly what the Euler subscriber receives.  Only the Viture
IMU parser ever writes `this.rotation`. -/
theorem notify_counterexample :
    (handleInputReport nanInterp
        { obsState with rotation := ⟨JSVal.val 7, JSVal.val 0, JSVal.val 0⟩ }
        quatOkBytes).2 ≠ []
    ∧ (handleInputReport nanInterp
        { obsState with rotation := ⟨JSVal.val 7, JSVal.val 0, JSVal.val 0⟩ }
        quatOkBytes).1.rotation = ⟨JSVal.val 7, JSVal.val 0, JSVal.val 0⟩
    ∧ VEvent.rotCb 1 ⟨JSVal.val 7, JSVal.val 0, JSVal.val 0⟩
        ∈ (handleInputReport nanInterp
            { obsState with rotation := ⟨JSVal.val 7, JSVal.val 0, JSVal.val 0⟩ }
            quatOkBytes).2 := by
  with_unfolding_all decide

/-- C8 amended: on every successfully validated sample of any format the
calibrated quaternion is stored and then every registered quaternion
subscriber and every registered Euler subscriber is invoked exactly
once, synchronously, in registration order (quaternion subscribers with
the new quaternion, Euler subscribers with the currently stored Euler
triple), before the handler returns; the Euler triple itself is freshly
stored only by the Viture-IMU parser — the two legacy parsers leave it
at its prior (possibly stale) value. -/
theorem notify_amended (I : FloatInterp) (s : VState) (bytes : List Nat)
    (hne : (handleInputReport I s bytes).2 ≠ []) :
    (handleInputReport I s bytes).2
      = s.callbacks.map
          (fun id => VEvent.quatCb id (handleInputReport I s bytes).1.quaternion)
        ++ s.callbacksRot.map
          (fun id => VEvent.rotCb id (handleInputReport I s bytes).1.rotation)
        ++ [VEvent.post (handleInputReport I s bytes).1.quaternion
              (handleInputReport I s bytes).1.rotation]
    ∧ (handleInputReport I s bytes).1.calibrationOffset = s.calibrationOffset
    ∧ (handleInputReport I s bytes).1.callbacks = s.callbacks
    ∧ (handleInputReport I s bytes).1.callbacksRot = s.callbacksRot
    ∧ ((30 ≤ bytes.length ∧ bytes.getD 0 0 = 0xFF ∧ bytes.getD 1 0 = 0xFC)
        ∨ (handleInputReport I s bytes).1.rotation = s.rotation) := by
  unfold handleInputReport at hne ⊢
  by_cases hh : 30 ≤ bytes.length ∧ bytes.getD 0 0 = 0xFF
      ∧ bytes.getD 1 0 = 0xFC
  · rw [if_pos hh] at hne ⊢
    unfold parseVitureImuPacket at hne ⊢
    by_cases hv : vitureInvalid (vitureAngles bytes).roll
        (vitureAngles bytes).pitch (vitureAngles bytes).yaw
    · rw [if_pos hv] at hne
      exact absurd rfl hne
    · rw [if_neg hv]
      exact ⟨rfl, rfl, rfl, rfl, Or.inl hh⟩
  · rw [if_neg hh] at hne ⊢
    by_cases h36 : 36 ≤ bytes.length
    · rw [if_pos h36] at hne ⊢
      unfold parseQuaternionData applyQuatSample at hne ⊢
      by_cases hv : quatMagInvalid (jsumSquares (quatSample bytes)) = true
      · rw [if_pos hv] at hne
        exact absurd rfl hne
      · rw [if_neg hv]
        exact ⟨rfl, rfl, rfl, rfl, Or.inr rfl⟩
    · rw [if_neg h36] at hne ⊢
      by_cases h12 : 12 ≤ bytes.length
      · rw [if_pos h12] at hne ⊢
        unfold parseEulerData
        exact ⟨rfl, rfl, rfl, rfl, Or.inr rfl⟩
      · rw [if_neg h12] at hne
        exact absurd rfl hne

/-- Witness for C8 (amended) at a valid legacy-quaternion report with
one subscriber of each kind. -/
theorem notify_amended_witness :
    (handleInputReport nanInterp obsState quatXBytes).2
      = obsState.callbacks.map
          (fun id => VEvent.quatCb id
            (handleInputReport nanInterp obsState quatXBytes).1.quaternion)
        ++ obsState.callbacksRot.map
          (fun id => VEvent.rotCb id
            (handleInputReport nanInterp obsState quatXBytes).1.rotation)
        ++ [VEvent.post
              (handleInputReport nanInterp obsState quatXBytes).1.quaternion
              (handleInputReport nanInterp obsState quatXBytes).1.rotation] :=
  (notify_amended nanInterp obsState quatXBytes
    (by with_unfolding_all decide)).1

/-! ### Recenter and calibration (C3) -/

@[simp] lemma jadd_val (a b : ℚ) :
    JSVal.jadd (JSVal.val a) (JSVal.val b) = JSVal.val (a + b) := rfl

@[simp] lemma jmul_val (a b : ℚ) :
    JSVal.jmul (JSVal.val a) (JSVal.val b) = JSVal.val (a * b) := rfl

@[simp] lemma jneg_val (a : ℚ) : JSVal.jneg (JSVal.val a) = JSVal.val (-a) := rfl

@[simp] lemma jsub_val (a b : ℚ) :
    JSVal.jsub (JSVal.val a) (JSVal.val b) = JSVal.val (a - b) := by
  simp only [JSVal.jsub, jneg_val, jadd_val, sub_eq_add_neg]

lemma mult_ratQuat (a b c d e f g h : ℚ) :
    multiplyQuaternions (ratQuat a b c d) (ratQuat e f g h)
      = ratQuat (a * e - b * f - c * g - d * h) (a * f + b * e + c * h - d * g)
          (a * g - b * h + c * e + d * f) (a * h + b * g - c * f + d * e) := by
  simp only [multiplyQuaternions, ratQuat, jmul_val, jsub_val, jadd_val]

lemma conj_ratQuat (a b c d : ℚ) :
    conjugateQuaternion (ratQuat a b c d) = ratQuat a (-b) (-c) (-d) := by
  simp only [conjugateQuaternion, ratQuat, jneg_val]

lemma jsumSquares_ratQuat (w x y z : ℚ) :
    jsumSquares (ratQuat w x y z)
      = JSVal.val (w * w + x * x + y * y + z * z) := by
  simp only [jsumSquares, ratQuat, jmul_val, jadd_val]

lemma quatMagInvalid_one : quatMagInvalid (JSVal.val 1) = false := by
  norm_num [quatMagInvalid]

lemma applyQuatSample_valid (s : VState) (q : JQuat)
    (hv : quatMagInvalid (jsumSquares q) = false) :
    applyQuatSample s q
      = (calibratedState s q, notifyCallbacks (calibratedState s q)) := by
  unfold applyQuatSample calibratedState
  rw [if_neg (by simp [hv])]

/-- Counterexample to C3 as stated: with calibration offset (0,0,0,1)
in force — the claim quantifies over *every* engine state — processing
the valid unit sample (0,1,0,0), recentering, and processing the
identical sample again yields the calibrated quaternion (0,0,0,−1),
not the identity: the second calibrated value is
`conj(raw) ⊗ offset₀ ⊗ raw`, which is the identity only for special
initial offsets. -/
theorem recenter_counterexample :
    ((handleInputReport nanInterp
        (recenter (handleInputReport nanInterp
          { obsState with calibrationOffset := ratQuat 0 0 0 1 }
          quatXBytes).1)
        quatXBytes).1).quaternion = ratQuat 0 0 0 (-1)
    ∧ ratQuat 0 0 0 (-1) ≠ ratQuat 1 0 0 0 := by
  with_unfolding_all decide

/-- C3 amended: when the calibration offset in force at the first sample
is the identity quaternion and the raw quaternion has unit norm,
processing the sample, recentering, and processing the identical raw
sample again yields exactly the identity quaternion (w=1, x=y=z=0). -/
theorem recenter_amended (s : VState) (w x y z : ℚ)
    (hoff : s.calibrationOffset = ratQuat 1 0 0 0)
    (hnorm : w * w + x * x + y * y + z * z = 1) :
    ((applyQuatSample (recenter (applyQuatSample s (ratQuat w x y z)).1)
        (ratQuat w x y z)).1).quaternion = ratQuat 1 0 0 0 := by
  have hval : quatMagInvalid (jsumSquares (ratQuat w x y z)) = false := by
    rw [jsumSquares_ratQuat, hnorm]
    exact quatMagInvalid_one
  rw [applyQuatSample_valid s _ hval]
  dsimp only
  rw [applyQuatSample_valid _ _ hval]
  dsimp only
  unfold recenter calibratedState
  dsimp only
  rw [hoff, conj_ratQuat, mult_ratQuat, conj_ratQuat, mult_ratQuat]
  unfold ratQuat
  simp only [JQuat.mk.injEq, JSVal.val.injEq]
  refine ⟨?_, by ring, by ring, by ring⟩
  nlinarith [hnorm]

/-- Witness for C3 (amended) at the unit sample (0,1,0,0) from a fresh
engine (identity offset). -/
theorem recenter_amended_witness :
    ((applyQuatSample (recenter (applyQuatSample obsState (ratQuat 0 1 0 0)).1)
        (ratQuat 0 1 0 0)).1).quaternion = ratQuat 1 0 0 0 :=
  recenter_amended obsState 0 1 0 0 (by with_unfolding_all decide) (by norm_num)

/-! ### Connect and partial interface failure (C7) -/

/-- Counterexample to C7 as stated: (a) with a single interface whose
`open()` fails, zero interfaces end up open (no listener attached), yet
`connect` succeeds and returns a connected session — it does not fail;
(b) with two interfaces where the second fails to open, the returned
session contains BOTH interfaces (`_allDevices = vitureDevices`), not
only the first. -/
theorem connect_counterexample :
    connectModel true 1 [⟨false, false⟩]
      = Except.ok ⟨some ⟨false, false⟩, [⟨false, false⟩], true, []⟩
    ∧ connectModel true 1 [⟨false, true⟩, ⟨false, false⟩]
      = Except.ok
          ⟨some ⟨false, true⟩, [⟨false, true⟩, ⟨false, false⟩], true, [0]⟩ :=
  ⟨rfl, rfl⟩

/-- C7 amended: `connect` fails exactly when WebHID is unsupported or no
device was selected; interface-open failures are logged and skipped but
never escalate — the session is created regardless (even with zero open
interfaces), is marked connected, contains ALL matched interfaces, with
`device` the first matched interface and report listeners attached
exactly on the interfaces that ended up open. -/
theorem connect_amended (supported : Bool) (n : Nat) (devs : List HDevice) :
    (isOkB (connectModel supported n devs) = true
      ↔ supported = true ∧ n ≠ 0)
    ∧ (∀ sess, connectModel supported n devs = Except.ok sess →
        sess.connected = true ∧ sess.allDevices = devs
        ∧ sess.device = devs.head?
        ∧ sess.listeners = (List.range devs.length).filter
            (fun i => deviceOpenedAfter (devs.getD i ⟨false, false⟩))) := by
  unfold connectModel isOkB
  cases supported with
  | false => simp
  | true =>
    by_cases hn : n = 0
    · subst hn
      simp
    · rw [if_neg (by simp), if_neg hn]
      constructor
      · simp [hn]
      · intro sess hsess
        cases hsess
        exact ⟨rfl, rfl, rfl, rfl⟩

/-- Witness for C7 (amended): one already-open interface yields a
successful connect whose session lists that interface. -/
theorem connect_amended_witness :
    isOkB (connectModel true 1 [⟨true, false⟩]) = true
    ∧ (⟨some ⟨true, false⟩, [⟨true, false⟩], true, [0]⟩ : ConnSession).allDevices
        = [⟨true, false⟩] :=
  ⟨(connect_amended true 1 [⟨true, false⟩]).1.mpr ⟨rfl, by decide⟩,
   ((connect_amended true 1 [⟨true, false⟩]).2 _ rfl).2.1⟩

end TrackBridge
